import Mathlib

/-!
Verification of the thinfilm multilayer-coating simulator (thinfilm2.hh).

The C++ code is shallowly embedded: machine doubles become real numbers,
std::complex<double> becomes ℂ, and the standard library functions
std::sqrt, std::log, std::cos, std::sin, std::atan2, std::arg, std::norm,
std::abs on complex numbers become their exact mathematical counterparts
(principal branches, matching the C++ specification).
-/

namespace thinfilm

/-- Model of the shared imaginary-unit constant onei = complex(0, 1). -/
def onei : ℂ := Complex.I

/-- Model of std::sqrt on std::complex<double>: the principal square root,
with nonnegative real part and the imaginary part carrying the sign of the
input's imaginary part (half-angle formula; branch cut on the negative real
axis mapped to the upper half plane, as with Im(log) in (-pi, pi]). -/
noncomputable def csqrt (z : ℂ) : ℂ :=
  ⟨Real.sqrt ((Complex.abs z + z.re) / 2),
   (if z.im < 0 then -1 else 1) * Real.sqrt ((Complex.abs z - z.re) / 2)⟩

/-- Model of thinfilm::asin: asin(z) = -i * log(i*z + sqrt(1 - z*z)). -/
noncomputable def asin (z : ℂ) : ℂ :=
  -onei * Complex.log (onei * z + csqrt (1 - z * z))

/-- Model of thinfilm::acos: acos(z) = -i * log(z + sqrt(z*z - 1)). -/
noncomputable def acos (z : ℂ) : ℂ :=
  -onei * Complex.log (z + csqrt (z * z - 1))

/-- Model of std::atan2 (y first, x second), via the complex argument. -/
noncomputable def atan2 (y x : ℝ) : ℝ := Complex.arg ⟨x, y⟩

/-- Model of thinfilm::Layer: thickness and complex refractive index. -/
structure Layer where
  thickness : ℝ
  refractiveIndex : ℂ

/-- Model of thinfilm::Matrix22: a 2x2 complex matrix. -/
@[ext] structure Matrix22 where
  m11 : ℂ
  m12 : ℂ
  m21 : ℂ
  m22 : ℂ

/-- Model of Matrix22::operator*= for the (only occurring) case where the
right operand b is a distinct object from *this: the two temporaries x are
made explicit, m12 and m22 are computed from the not-yet-overwritten row
entries, exactly as in the source. -/
def Matrix22.mulAssign (a b : Matrix22) : Matrix22 :=
  let x := a.m11 * b.m11 + a.m12 * b.m21
  let new12 := a.m11 * b.m12 + a.m12 * b.m22
  let new11 := x
  let x2 := a.m21 * b.m11 + a.m22 * b.m21
  let new22 := a.m21 * b.m12 + a.m22 * b.m22
  let new21 := x2
  ⟨new11, new12, new21, new22⟩

/-- Model of Matrix22::operator*= when the right operand aliases *this
(the hypothetical call a *= a): every read of b.mij sees the current,
possibly already overwritten, field of a.  Statement-by-statement model of
the source body under that aliasing. -/
def Matrix22.mulAssignSelf (a : Matrix22) : Matrix22 :=
  let x := a.m11 * a.m11 + a.m12 * a.m21
  let a1 : Matrix22 := ⟨a.m11, a.m11 * a.m12 + a.m12 * a.m22, a.m21, a.m22⟩
  let a2 : Matrix22 := ⟨x, a1.m12, a1.m21, a1.m22⟩
  let x2 := a2.m21 * a2.m11 + a2.m22 * a2.m21
  let a3 : Matrix22 := ⟨a2.m11, a2.m12, a2.m21, a2.m21 * a2.m12 + a2.m22 * a2.m22⟩
  ⟨a3.m11, a3.m12, x2, a3.m22⟩

/-- Model of the free operator*(Matrix22 a, const Matrix22 and b): a is
passed by value, so the in-place multiply inside never aliases b. -/
def Matrix22.mul (a b : Matrix22) : Matrix22 := a.mulAssign b

instance : Mul Matrix22 := ⟨Matrix22.mul⟩

/-- Incident-medium admittance for P polarization: nIncident / incidentCosTheta. -/
noncomputable def admittanceIncidentP (incidentCosTheta nIncident : ℂ) : ℂ :=
  nIncident / incidentCosTheta

/-- Incident-medium admittance for S polarization: nIncident * incidentCosTheta. -/
noncomputable def admittanceIncidentS (incidentCosTheta nIncident : ℂ) : ℂ :=
  nIncident * incidentCosTheta

/-- Snell-law cosine used for the exit medium and for each layer:
sqrt(1 - (1 - cos^2 theta0) * (nIncident/n2)^2), written exactly as in the
source (with the squared cosine and the squared index quotient). -/
noncomputable def snellCos (incidentCosTheta nIncident n2 : ℂ) : ℂ :=
  let squareIncidentCosTheta := incidentCosTheta * incidentCosTheta
  let r := nIncident / n2
  csqrt (1 - (1 - squareIncidentCosTheta) * (r * r))

/-- Cosine of the exit medium, by the Snell relation. -/
noncomputable def exitCosTheta (incidentCosTheta nIncident nExit : ℂ) : ℂ :=
  snellCos incidentCosTheta nIncident nExit

/-- Exit-medium admittance for P polarization. -/
noncomputable def admittanceExitP (incidentCosTheta nIncident nExit : ℂ) : ℂ :=
  nExit / exitCosTheta incidentCosTheta nIncident nExit

/-- Exit-medium admittance for S polarization. -/
noncomputable def admittanceExitS (incidentCosTheta nIncident nExit : ℂ) : ℂ :=
  nExit * exitCosTheta incidentCosTheta nIncident nExit

/-- The pair of characteristic matrices (P basis, S basis) of one layer:
cosine by the Snell relation, admittances n/cos and n*cos, phase thickness
deltaLayer = -2 pi n d cos(theta)/lambda, and entries
m11 = m22 = cos(delta), m12 = i sin(delta)/Y, m21 = i sin(delta) * Y. -/
noncomputable def layerMatrices (incidentCosTheta : ℂ) (lam : ℝ) (nIncident : ℂ)
    (L : Layer) : Matrix22 × Matrix22 :=
  let layerCosTheta := snellCos incidentCosTheta nIncident L.refractiveIndex
  let admittanceLayerP := L.refractiveIndex / layerCosTheta
  let admittanceLayerS := L.refractiveIndex * layerCosTheta
  let deltaLayer :=
    -2 * (Real.pi : ℂ) * L.refractiveIndex * (L.thickness : ℂ) * layerCosTheta / (lam : ℂ)
  let c := Complex.cos deltaLayer
  let s := Complex.sin deltaLayer * onei
  (⟨c, s / admittanceLayerP, s * admittanceLayerP, c⟩,
   ⟨c, s / admittanceLayerS, s * admittanceLayerS, c⟩)

/-- The running pair of product matrices: initialized to the identity and,
for each layer in incident-to-exit order, multiplied in place on the right
by that layer's P and S matrices. -/
noncomputable def productMatrices (incidentCosTheta : ℂ) (lam : ℝ) (nIncident : ℂ)
    (layers : List Layer) : Matrix22 × Matrix22 :=
  layers.foldl
    (fun pm L =>
      (pm.1.mulAssign (layerMatrices incidentCosTheta lam nIncident L).1,
       pm.2.mulAssign (layerMatrices incidentCosTheta lam nIncident L).2))
    (⟨1, 0, 0, 1⟩, ⟨1, 0, 0, 1⟩)

/-- bP = m11 + m12 * admittanceExitP of the accumulated P matrix. -/
noncomputable def bP (incidentCosTheta : ℂ) (lam : ℝ) (nIncident nExit : ℂ)
    (layers : List Layer) : ℂ :=
  (productMatrices incidentCosTheta lam nIncident layers).1.m11 +
    (productMatrices incidentCosTheta lam nIncident layers).1.m12 *
      admittanceExitP incidentCosTheta nIncident nExit

/-- cP = m21 + m22 * admittanceExitP of the accumulated P matrix. -/
noncomputable def cP (incidentCosTheta : ℂ) (lam : ℝ) (nIncident nExit : ℂ)
    (layers : List Layer) : ℂ :=
  (productMatrices incidentCosTheta lam nIncident layers).1.m21 +
    (productMatrices incidentCosTheta lam nIncident layers).1.m22 *
      admittanceExitP incidentCosTheta nIncident nExit

/-- bS = m11 + m12 * admittanceExitS of the accumulated S matrix. -/
noncomputable def bS (incidentCosTheta : ℂ) (lam : ℝ) (nIncident nExit : ℂ)
    (layers : List Layer) : ℂ :=
  (productMatrices incidentCosTheta lam nIncident layers).2.m11 +
    (productMatrices incidentCosTheta lam nIncident layers).2.m12 *
      admittanceExitS incidentCosTheta nIncident nExit

/-- cS = m21 + m22 * admittanceExitS of the accumulated S matrix. -/
noncomputable def cS (incidentCosTheta : ℂ) (lam : ℝ) (nIncident nExit : ℂ)
    (layers : List Layer) : ℂ :=
  (productMatrices incidentCosTheta lam nIncident layers).2.m21 +
    (productMatrices incidentCosTheta lam nIncident layers).2.m22 *
      admittanceExitS incidentCosTheta nIncident nExit

/-- Reflection coefficient for P: (bP - cP/YpInc) / (bP + cP/YpInc). -/
noncomputable def reflectionCoefficientP (incidentCosTheta : ℂ) (lam : ℝ)
    (nIncident nExit : ℂ) (layers : List Layer) : ℂ :=
  (bP incidentCosTheta lam nIncident nExit layers -
      cP incidentCosTheta lam nIncident nExit layers /
        admittanceIncidentP incidentCosTheta nIncident) /
    (bP incidentCosTheta lam nIncident nExit layers +
      cP incidentCosTheta lam nIncident nExit layers /
        admittanceIncidentP incidentCosTheta nIncident)

/-- Reflection coefficient for S: (bS - cS/YsInc) / (bS + cS/YsInc). -/
noncomputable def reflectionCoefficientS (incidentCosTheta : ℂ) (lam : ℝ)
    (nIncident nExit : ℂ) (layers : List Layer) : ℂ :=
  (bS incidentCosTheta lam nIncident nExit layers -
      cS incidentCosTheta lam nIncident nExit layers /
        admittanceIncidentS incidentCosTheta nIncident) /
    (bS incidentCosTheta lam nIncident nExit layers +
      cS incidentCosTheta lam nIncident nExit layers /
        admittanceIncidentS incidentCosTheta nIncident)

/-- Transmission coefficient for P (source spelling, typo kept):
2 / (bP + cP/YpInc) * incidentCosTheta / exitCosTheta. -/
noncomputable def transmitionCoefficientP (incidentCosTheta : ℂ) (lam : ℝ)
    (nIncident nExit : ℂ) (layers : List Layer) : ℂ :=
  2 / (bP incidentCosTheta lam nIncident nExit layers +
        cP incidentCosTheta lam nIncident nExit layers /
          admittanceIncidentP incidentCosTheta nIncident) *
      incidentCosTheta / exitCosTheta incidentCosTheta nIncident nExit

/-- Transmission coefficient for S: 2 / (bS + cS/YsInc). -/
noncomputable def transmitionCoefficientS (incidentCosTheta : ℂ) (lam : ℝ)
    (nIncident nExit : ℂ) (layers : List Layer) : ℂ :=
  2 / (bS incidentCosTheta lam nIncident nExit layers +
        cS incidentCosTheta lam nIncident nExit layers /
          admittanceIncidentS incidentCosTheta nIncident)

/-- The five output locations the caller's pointers refer to.  A field of
the result of simulate that the call did not write still holds the value it
had before the call. -/
structure Output where
  reflectance : ℝ
  transmittance : ℝ
  absorptance : ℝ
  psi : ℝ
  delta : ℝ

/-- Model of thinfilm::simulate.  A null pointer is modelled by a false
want flag; mem holds the values at the pointed-to locations before the
call, and the returned Output holds them after the call.  The nesting of
the writes follows the source: reflectance guards transmittance, which
guards absorptance; psi and delta are written when both their pointers are
non-null. -/
noncomputable def simulate (incidentCosTheta : ℂ) (lam polarization : ℝ)
    (nIncident nExit : ℂ) (layers : List Layer)
    (wantR wantT wantA wantPsi wantDelta : Bool) (mem : Output) : Output :=
  let rCoefP := reflectionCoefficientP incidentCosTheta lam nIncident nExit layers
  let rCoefS := reflectionCoefficientS incidentCosTheta lam nIncident nExit layers
  let afterR :=
    if wantR then
      let polP := Real.cos polarization * Real.cos polarization
      let polS := Real.sin polarization * Real.sin polarization
      let reflVal := polP * Complex.normSq rCoefP + polS * Complex.normSq rCoefS
      if wantT then
        let transVal :=
          polP * Complex.normSq (transmitionCoefficientP incidentCosTheta lam nIncident nExit layers) +
            polS * Complex.normSq (transmitionCoefficientS incidentCosTheta lam nIncident nExit layers)
        if wantA then
          { mem with reflectance := reflVal, transmittance := transVal,
                     absorptance := 1 - reflVal - transVal }
        else
          { mem with reflectance := reflVal, transmittance := transVal }
      else
        { mem with reflectance := reflVal }
    else mem
  if wantPsi && wantDelta then
    { afterR with
        psi := atan2 (Complex.abs rCoefP) (Complex.abs rCoefS),
        delta := Complex.arg rCoefP - Complex.arg rCoefS }
  else afterR

/-- The condition under which simulate prints its warning on stderr: the
fprintf sits inside the reflectance branch, inside the transmittance
branch, guarded by imag(nIncident) != 0. -/
def simulateWarns (nIncident : ℂ) (wantR wantT : Bool) : Prop :=
  if wantR then (if wantT then nIncident.im ≠ 0 else False) else False

/-- Helper: the value-semantics product unfolds to the textbook 2x2 product
formula (the temporaries of operator*= cancel out). -/
theorem Matrix22.mul_def (A B : Matrix22) :
    A * B = ⟨A.m11 * B.m11 + A.m12 * B.m21, A.m11 * B.m12 + A.m12 * B.m22,
             A.m21 * B.m11 + A.m22 * B.m21, A.m21 * B.m12 + A.m22 * B.m22⟩ := rfl

/-- Claim C6: the Matrix22 product has the four textbook entries, it is
associative, and diag(1,1) is a two-sided identity. -/
theorem matrix22_product_monoid :
    (∀ A B : Matrix22,
        A * B = ⟨A.m11 * B.m11 + A.m12 * B.m21, A.m11 * B.m12 + A.m12 * B.m22,
                 A.m21 * B.m11 + A.m22 * B.m21, A.m21 * B.m12 + A.m22 * B.m22⟩) ∧
    (∀ A B C : Matrix22, A * B * C = A * (B * C)) ∧
    (∀ A : Matrix22,
        (⟨1, 0, 0, 1⟩ : Matrix22) * A = A ∧ A * (⟨1, 0, 0, 1⟩ : Matrix22) = A) := by
  refine ⟨fun A B => rfl, fun A B C => ?_, fun A => ⟨?_, ?_⟩⟩
  · simp only [Matrix22.mul_def]
    ext <;> ring
  · simp only [Matrix22.mul_def]
    ext <;> simp
  · simp only [Matrix22.mul_def]
    ext <;> simp

/-- Claim C10: squaring through the value-returning operator* is the true
square given by the product formula applied to A with itself, because the
left operand is a copy; whereas the in-place multiply-assign under aliasing
(modelled by mulAssignSelf) does read a partially overwritten operand and
deviates from the true square, e.g. at the matrix (1, 1, 1, 0). -/
theorem matrix22_square_by_value :
    (∀ A : Matrix22,
        A * A = ⟨A.m11 * A.m11 + A.m12 * A.m21, A.m11 * A.m12 + A.m12 * A.m22,
                 A.m21 * A.m11 + A.m22 * A.m21, A.m21 * A.m12 + A.m22 * A.m22⟩) ∧
    Matrix22.mulAssignSelf ⟨1, 1, 1, 0⟩ ≠ (⟨1, 1, 1, 0⟩ : Matrix22) * ⟨1, 1, 1, 0⟩ := by
  refine ⟨fun A => rfl, fun h => ?_⟩
  have h21 := congrArg Matrix22.m21 h
  simp only [Matrix22.mulAssignSelf, Matrix22.mul_def] at h21
  norm_num at h21

/-- Claim C2: the two running product matrices start as the identity and,
upon visiting one more layer at the exit end of the stack, each is
right-multiplied by that layer's characteristic matrix, whose entries are
m11 = m22 = cos(delta), m12 = i sin(delta)/Y, m21 = i sin(delta) Y with
delta = -2 pi n d cos(theta)/lambda, the layer cosine from the Snell
relation with nIncident/nLayer, and Y the P admittance n/cos for the first
product and the S admittance n cos for the second. -/
theorem simulate_layer_accumulation :
    ∀ (incidentCosTheta : ℂ) (lam : ℝ) (nIncident : ℂ) (ls : List Layer) (L : Layer),
      productMatrices incidentCosTheta lam nIncident [] = (⟨1, 0, 0, 1⟩, ⟨1, 0, 0, 1⟩) ∧
      productMatrices incidentCosTheta lam nIncident (ls ++ [L]) =
        (let lc := csqrt (1 - (1 - incidentCosTheta * incidentCosTheta) *
            ((nIncident / L.refractiveIndex) * (nIncident / L.refractiveIndex)))
         let d := -2 * (Real.pi : ℂ) * L.refractiveIndex * (L.thickness : ℂ) * lc / (lam : ℂ)
         ((productMatrices incidentCosTheta lam nIncident ls).1 *
            ⟨Complex.cos d, Complex.I * Complex.sin d / (L.refractiveIndex / lc),
             Complex.I * Complex.sin d * (L.refractiveIndex / lc), Complex.cos d⟩,
          (productMatrices incidentCosTheta lam nIncident ls).2 *
            ⟨Complex.cos d, Complex.I * Complex.sin d / (L.refractiveIndex * lc),
             Complex.I * Complex.sin d * (L.refractiveIndex * lc), Complex.cos d⟩)) := by
  intro incidentCosTheta lam nIncident ls L
  refine ⟨rfl, ?_⟩
  show (productMatrices incidentCosTheta lam nIncident (ls ++ [L]) : Matrix22 × Matrix22) = _
  simp only [productMatrices, List.foldl_append, List.foldl_cons, List.foldl_nil]
  have hmul : ∀ a b : Matrix22, a.mulAssign b = a * b := fun a b => rfl
  rw [hmul, hmul]
  simp only [Matrix22.mul_def, layerMatrices, snellCos, onei]
  refine Prod.ext ?_ ?_ <;>
    · dsimp only
      ext <;> ring

/-- Claim C1: whenever reflectance is requested, simulate stores
cos^2(polarization) |rP|^2 + sin^2(polarization) |rS|^2, where each r is
(B - C/Yinc)/(B + C/Yinc) with B = m11 + m12 Yexit and C = m21 + m22 Yexit
taken from the accumulated product matrix of that basis, Yinc = n/cos (P)
or n cos (S) of the incident medium, and the exit admittances built from
the principal-branch cosine sqrt(1 - (1 - cos^2 theta0)(nInc/nExit)^2). -/
theorem simulate_reflectance_formula :
    ∀ (incidentCosTheta : ℂ) (lam pol : ℝ) (nIncident nExit : ℂ) (ls : List Layer)
      (wT wA wP wD : Bool) (mem : Output),
      (simulate incidentCosTheta lam pol nIncident nExit ls true wT wA wP wD mem).reflectance =
        (let ce := csqrt (1 - (1 - incidentCosTheta * incidentCosTheta) *
            ((nIncident / nExit) * (nIncident / nExit)))
         let MP := (productMatrices incidentCosTheta lam nIncident ls).1
         let MS := (productMatrices incidentCosTheta lam nIncident ls).2
         let bPv := MP.m11 + MP.m12 * (nExit / ce)
         let cPv := MP.m21 + MP.m22 * (nExit / ce)
         let bSv := MS.m11 + MS.m12 * (nExit * ce)
         let cSv := MS.m21 + MS.m22 * (nExit * ce)
         let rPv := (bPv - cPv / (nIncident / incidentCosTheta)) /
                      (bPv + cPv / (nIncident / incidentCosTheta))
         let rSv := (bSv - cSv / (nIncident * incidentCosTheta)) /
                      (bSv + cSv / (nIncident * incidentCosTheta))
         Real.cos pol ^ 2 * Complex.normSq rPv + Real.sin pol ^ 2 * Complex.normSq rSv) := by
  intro incidentCosTheta lam pol nIncident nExit ls wT wA wP wD mem
  cases wT <;> cases wA <;> cases wP <;> cases wD <;>
    · simp only [simulate, reflectionCoefficientP, reflectionCoefficientS, bP, cP, bS, cS,
        admittanceExitP, admittanceExitS, admittanceIncidentP, admittanceIncidentS,
        exitCosTheta, snellCos, Bool.and_false, Bool.and_true, Bool.and_self,
        Bool.false_and, Bool.true_and, if_true, if_false, Bool.false_eq_true,
        ite_true, ite_false]
      ring

/-- Claim C3: when transmittance is requested together with reflectance,
simulate stores cos^2(polarization) |tP|^2 + sin^2(polarization) |tS|^2 with
tS = 2/(bS + cS/YsInc) and tP = 2/(bP + cP/YpInc) scaled by
cosTheta_inc/cosTheta_exit; that value is stored for every nIncident (in
particular unaltered when the incident medium absorbs), and the diagnostic
fires exactly when Im(nIncident) is nonzero. -/
theorem simulate_transmittance_formula_and_warning :
    ∀ (incidentCosTheta : ℂ) (lam pol : ℝ) (nIncident nExit : ℂ) (ls : List Layer)
      (wA wP wD : Bool) (mem : Output),
      ((simulate incidentCosTheta lam pol nIncident nExit ls true true wA wP wD mem).transmittance =
        (let ce := csqrt (1 - (1 - incidentCosTheta * incidentCosTheta) *
            ((nIncident / nExit) * (nIncident / nExit)))
         let MP := (productMatrices incidentCosTheta lam nIncident ls).1
         let MS := (productMatrices incidentCosTheta lam nIncident ls).2
         let bPv := MP.m11 + MP.m12 * (nExit / ce)
         let cPv := MP.m21 + MP.m22 * (nExit / ce)
         let bSv := MS.m11 + MS.m12 * (nExit * ce)
         let cSv := MS.m21 + MS.m22 * (nExit * ce)
         let tPv := 2 / (bPv + cPv / (nIncident / incidentCosTheta)) * incidentCosTheta / ce
         let tSv := 2 / (bSv + cSv / (nIncident * incidentCosTheta))
         Real.cos pol ^ 2 * Complex.normSq tPv + Real.sin pol ^ 2 * Complex.normSq tSv)) ∧
      (simulateWarns nIncident true true ↔ nIncident.im ≠ 0) := by
  intro incidentCosTheta lam pol nIncident nExit ls wA wP wD mem
  constructor
  · cases wA <;> cases wP <;> cases wD <;>
      · simp only [simulate, transmitionCoefficientP, transmitionCoefficientS, bP, cP, bS, cS,
          admittanceExitP, admittanceExitS, admittanceIncidentP, admittanceIncidentS,
          exitCosTheta, snellCos, Bool.and_false, Bool.and_true, Bool.and_self,
          Bool.false_and, Bool.true_and, if_true, if_false, Bool.false_eq_true,
          ite_true, ite_false]
        ring
  · simp [simulateWarns]

/-- Claim C4: when psi and delta are both requested, simulate stores
psi = atan2(|rP|, |rS|) and delta = arg(rP) - arg(rS), for every choice of
the reflectance/transmittance/absorptance request flags (hence
independently of them). -/
theorem simulate_psi_delta_formula :
    ∀ (incidentCosTheta : ℂ) (lam pol : ℝ) (nIncident nExit : ℂ) (ls : List Layer)
      (wR wT wA : Bool) (mem : Output),
      (let ce := csqrt (1 - (1 - incidentCosTheta * incidentCosTheta) *
          ((nIncident / nExit) * (nIncident / nExit)))
       let MP := (productMatrices incidentCosTheta lam nIncident ls).1
       let MS := (productMatrices incidentCosTheta lam nIncident ls).2
       let bPv := MP.m11 + MP.m12 * (nExit / ce)
       let cPv := MP.m21 + MP.m22 * (nExit / ce)
       let bSv := MS.m11 + MS.m12 * (nExit * ce)
       let cSv := MS.m21 + MS.m22 * (nExit * ce)
       let rPv := (bPv - cPv / (nIncident / incidentCosTheta)) /
                    (bPv + cPv / (nIncident / incidentCosTheta))
       let rSv := (bSv - cSv / (nIncident * incidentCosTheta)) /
                    (bSv + cSv / (nIncident * incidentCosTheta))
       (simulate incidentCosTheta lam pol nIncident nExit ls wR wT wA true true mem).psi =
          atan2 (Complex.abs rPv) (Complex.abs rSv) ∧
        (simulate incidentCosTheta lam pol nIncident nExit ls wR wT wA true true mem).delta =
          Complex.arg rPv - Complex.arg rSv) := by
  intro incidentCosTheta lam pol nIncident nExit ls wR wT wA mem
  cases wR <;> cases wT <;> cases wA <;>
    · constructor <;>
        rfl

/-- Claim C5: each output location is written only when its own flag and
all its prerequisite flags are set; with reflectance off, the reflectance,
transmittance and absorptance cells keep their prior values; with
transmittance off, the transmittance and absorptance cells do; with
absorptance off, the absorptance cell does; and psi and delta keep their
prior values whenever either of their two pointers is null. -/
theorem simulate_output_frame :
    ∀ (incidentCosTheta : ℂ) (lam pol : ℝ) (nIncident nExit : ℂ) (ls : List Layer)
      (wR wT wA wP wD : Bool) (mem : Output),
      ((simulate incidentCosTheta lam pol nIncident nExit ls false wT wA wP wD mem).reflectance =
          mem.reflectance ∧
        (simulate incidentCosTheta lam pol nIncident nExit ls false wT wA wP wD mem).transmittance =
          mem.transmittance ∧
        (simulate incidentCosTheta lam pol nIncident nExit ls false wT wA wP wD mem).absorptance =
          mem.absorptance) ∧
      ((simulate incidentCosTheta lam pol nIncident nExit ls wR false wA wP wD mem).transmittance =
          mem.transmittance ∧
        (simulate incidentCosTheta lam pol nIncident nExit ls wR false wA wP wD mem).absorptance =
          mem.absorptance) ∧
      (simulate incidentCosTheta lam pol nIncident nExit ls wR wT false wP wD mem).absorptance =
        mem.absorptance ∧
      ((simulate incidentCosTheta lam pol nIncident nExit ls wR wT wA false wD mem).psi =
          mem.psi ∧
        (simulate incidentCosTheta lam pol nIncident nExit ls wR wT wA false wD mem).delta =
          mem.delta) ∧
      ((simulate incidentCosTheta lam pol nIncident nExit ls wR wT wA wP false mem).psi =
          mem.psi ∧
        (simulate incidentCosTheta lam pol nIncident nExit ls wR wT wA wP false mem).delta =
          mem.delta) := by
  intro incidentCosTheta lam pol nIncident nExit ls wR wT wA wP wD mem
  cases wR <;> cases wT <;> cases wA <;> cases wP <;> cases wD <;>
    · refine ⟨⟨rfl, rfl, rfl⟩, ⟨rfl, rfl⟩, rfl, ⟨rfl, rfl⟩, rfl, rfl⟩

/-- Claim C9: when absorptance is requested together with reflectance and
transmittance, simulate stores absorptance = 1 - reflectance -
transmittance (the two values it just stored), so the three stored outputs
always sum to 1 exactly; in particular they do for lossless stacks. -/
theorem simulate_absorptance_formula :
    ∀ (incidentCosTheta : ℂ) (lam pol : ℝ) (nIncident nExit : ℂ) (ls : List Layer)
      (wP wD : Bool) (mem : Output),
      (simulate incidentCosTheta lam pol nIncident nExit ls true true true wP wD mem).absorptance =
        1 - (simulate incidentCosTheta lam pol nIncident nExit ls true true true wP wD mem).reflectance
          - (simulate incidentCosTheta lam pol nIncident nExit ls true true true wP wD mem).transmittance ∧
      (simulate incidentCosTheta lam pol nIncident nExit ls true true true wP wD mem).reflectance
        + (simulate incidentCosTheta lam pol nIncident nExit ls true true true wP wD mem).transmittance
        + (simulate incidentCosTheta lam pol nIncident nExit ls true true true wP wD mem).absorptance = 1 := by
  intro incidentCosTheta lam pol nIncident nExit ls wP wD mem
  cases wP <;> cases wD <;>
    · constructor
      · rfl
      · simp only [simulate, Bool.and_false, Bool.and_true, Bool.and_self, if_true, if_false,
          Bool.false_eq_true, ite_true, ite_false]
        ring

/-- Helper: on a nonnegative real, csqrt agrees with the real square root. -/
theorem csqrt_ofReal_nonneg (r : ℝ) (h : 0 ≤ r) : csqrt (r : ℂ) = (Real.sqrt r : ℂ) := by
  unfold csqrt
  apply Complex.ext
  · show Real.sqrt ((Complex.abs (r : ℂ) + (r : ℂ).re) / 2) = _
    rw [Complex.abs_ofReal, abs_of_nonneg h, Complex.ofReal_re, add_self_div_two,
      Complex.ofReal_re]
  · show (if (r : ℂ).im < 0 then (-1 : ℝ) else 1) * Real.sqrt ((Complex.abs (r : ℂ) - (r : ℂ).re) / 2) = _
    rw [Complex.abs_ofReal, abs_of_nonneg h, Complex.ofReal_re, Complex.ofReal_im, sub_self,
      zero_div, Real.sqrt_zero, mul_zero, Complex.ofReal_im]

/-- Helper: on a nonpositive real, csqrt is sqrt(-r) times i (the branch
cut of the principal square root sends the negative axis up). -/
theorem csqrt_ofReal_nonpos (r : ℝ) (h : r ≤ 0) :
    csqrt (r : ℂ) = (Real.sqrt (-r) : ℂ) * Complex.I := by
  unfold csqrt
  apply Complex.ext
  · show Real.sqrt ((Complex.abs (r : ℂ) + (r : ℂ).re) / 2) = _
    rw [Complex.abs_ofReal, abs_of_nonpos h, Complex.ofReal_re, neg_add_cancel, zero_div,
      Real.sqrt_zero]
    simp [Complex.mul_re]
  · show (if (r : ℂ).im < 0 then (-1 : ℝ) else 1) * Real.sqrt ((Complex.abs (r : ℂ) - (r : ℂ).re) / 2) = _
    rw [Complex.abs_ofReal, abs_of_nonpos h, Complex.ofReal_im]
    simp only [lt_irrefl, if_false, one_mul, Complex.mul_im, Complex.I_re, Complex.I_im,
      Complex.ofReal_re, Complex.ofReal_im, mul_one, mul_zero, zero_add]
    rw [show (-r - r) / 2 = -r by ring, add_zero]

/-- Helper: csqrt 1 = 1. -/
theorem csqrt_one : csqrt 1 = 1 := by
  have h := csqrt_ofReal_nonneg 1 zero_le_one
  simpa using h

/-- Helper: both reflection coefficients of the bare 1 / 1.5 boundary at
normal incidence evaluate to -1/5. -/
theorem reflCoef_airglass :
    ∀ lam : ℝ,
      reflectionCoefficientP 1 lam 1 1.5 [] = ((-(1 / 5) : ℝ) : ℂ) ∧
      reflectionCoefficientS 1 lam 1 1.5 [] = ((-(1 / 5) : ℝ) : ℂ) := by
  intro lam
  have hce : csqrt (1 - (1 - (1 : ℂ) * 1) * ((1 / 1.5) * ((1 : ℂ) / 1.5))) = 1 := by
    rw [show (1 - (1 - (1 : ℂ) * 1) * ((1 / 1.5) * ((1 : ℂ) / 1.5))) = 1 by ring, csqrt_one]
  constructor <;>
    · simp only [reflectionCoefficientP, reflectionCoefficientS, bP, cP, bS, cS,
        admittanceExitP, admittanceExitS, admittanceIncidentP, admittanceIncidentS,
        exitCosTheta, snellCos, productMatrices, List.foldl_nil, hce]
      push_cast
      norm_num

/-- Claim C8: with no layers, nIncident = 1, nExit = 1.5 and normal
incidence, the stored reflectance is 0.04 for every polarization angle, and
the P and S per-polarization reflectances coincide. -/
theorem simulate_airglass_reflectance :
    ∀ (lam pol : ℝ) (wT wA wP wD : Bool) (mem : Output),
      (simulate 1 lam pol 1 1.5 [] true wT wA wP wD mem).reflectance = 0.04 ∧
      Complex.normSq (reflectionCoefficientP 1 lam 1 1.5 []) =
        Complex.normSq (reflectionCoefficientS 1 lam 1 1.5 []) := by
  intro lam pol wT wA wP wD mem
  obtain ⟨hP, hS⟩ := reflCoef_airglass lam
  refine ⟨?_, by rw [hP, hS]⟩
  have hre : (simulate 1 lam pol 1 1.5 [] true wT wA wP wD mem).reflectance =
      Real.cos pol * Real.cos pol * Complex.normSq (reflectionCoefficientP 1 lam 1 1.5 []) +
        Real.sin pol * Real.sin pol * Complex.normSq (reflectionCoefficientS 1 lam 1 1.5 []) := by
    cases wT <;> cases wA <;> cases wP <;> cases wD <;> rfl
  rw [hre, hP, hS, Complex.normSq_ofReal]
  have hpol := Real.sin_sq_add_cos_sq pol
  nlinarith [hpol]

/-- Helper: on [-1, 1] the complex asin reduces to the real arcsin. -/
theorem asin_ofReal_Icc (x : ℝ) (h1 : -1 ≤ x) (h2 : x ≤ 1) :
    asin (x : ℂ) = ((Real.arcsin x : ℝ) : ℂ) := by
  have hx2 : (0 : ℝ) ≤ 1 - x ^ 2 := by nlinarith
  have h1m : (1 : ℂ) - (x : ℂ) * (x : ℂ) = ((1 - x ^ 2 : ℝ) : ℂ) := by
    push_cast
    ring
  rw [asin, h1m, csqrt_ofReal_nonneg _ hx2]
  have key : onei * (x : ℂ) + ((Real.sqrt (1 - x ^ 2) : ℝ) : ℂ) =
      Complex.exp ((Real.arcsin x : ℂ) * Complex.I) := by
    rw [Complex.exp_mul_I, ← Complex.ofReal_cos, ← Complex.ofReal_sin, Real.cos_arcsin,
      Real.sin_arcsin h1 h2, onei]
    ring
  have him : (((Real.arcsin x : ℝ) : ℂ) * Complex.I).im = Real.arcsin x := by
    simp
  have hlow : -Real.pi < (((Real.arcsin x : ℝ) : ℂ) * Complex.I).im := by
    rw [him]
    have ha := Real.neg_pi_div_two_le_arcsin x
    have hp := Real.pi_pos
    linarith
  have hhigh : (((Real.arcsin x : ℝ) : ℂ) * Complex.I).im ≤ Real.pi := by
    rw [him]
    have ha := Real.arcsin_le_pi_div_two x
    have hp := Real.pi_pos
    linarith
  rw [key, Complex.log_exp hlow hhigh, onei]
  linear_combination (-(Real.arcsin x : ℂ)) * Complex.I_sq

/-- Helper: on [-1, 1] the complex acos reduces to the real arccos. -/
theorem acos_ofReal_Icc (x : ℝ) (h1 : -1 ≤ x) (h2 : x ≤ 1) :
    acos (x : ℂ) = ((Real.arccos x : ℝ) : ℂ) := by
  have hx2 : (x ^ 2 - 1 : ℝ) ≤ 0 := by nlinarith
  have h1m : (x : ℂ) * (x : ℂ) - 1 = ((x ^ 2 - 1 : ℝ) : ℂ) := by
    push_cast
    ring
  rw [acos, h1m, csqrt_ofReal_nonpos _ hx2, show -(x ^ 2 - 1 : ℝ) = 1 - x ^ 2 by ring]
  have key : (x : ℂ) + ((Real.sqrt (1 - x ^ 2) : ℝ) : ℂ) * Complex.I =
      Complex.exp ((Real.arccos x : ℂ) * Complex.I) := by
    rw [Complex.exp_mul_I, ← Complex.ofReal_cos, ← Complex.ofReal_sin,
      Real.cos_arccos h1 h2, Real.sin_arccos]
  have him : (((Real.arccos x : ℝ) : ℂ) * Complex.I).im = Real.arccos x := by
    simp
  have hlow : -Real.pi < (((Real.arccos x : ℝ) : ℂ) * Complex.I).im := by
    rw [him]
    have ha := Real.arccos_nonneg x
    have hp := Real.pi_pos
    linarith
  have hhigh : (((Real.arccos x : ℝ) : ℂ) * Complex.I).im ≤ Real.pi := by
    rw [him]
    exact Real.arccos_le_pi x
  rw [key, Complex.log_exp hlow hhigh, onei]
  linear_combination (-(Real.arccos x : ℂ)) * Complex.I_sq

/-- Claim C7: asin and acos follow the logarithmic closed forms
asin(z) = -i ln(i z + sqrt(1 - z^2)) and acos(z) = -i ln(z + sqrt(z^2 - 1)),
and on real arguments in [-1, 1] they agree exactly with the real-valued
arcsin and arccos, with zero imaginary part. -/
theorem asin_acos_spec :
    (∀ z : ℂ, asin z = -onei * Complex.log (onei * z + csqrt (1 - z * z)) ∧
        acos z = -onei * Complex.log (z + csqrt (z * z - 1))) ∧
    (∀ x : ℝ, -1 ≤ x → x ≤ 1 →
        asin (x : ℂ) = ((Real.arcsin x : ℝ) : ℂ) ∧ (asin (x : ℂ)).im = 0 ∧
        acos (x : ℂ) = ((Real.arccos x : ℝ) : ℂ) ∧ (acos (x : ℂ)).im = 0) := by
  refine ⟨fun z => ⟨rfl, rfl⟩, fun x h1 h2 => ?_⟩
  have hs := asin_ofReal_Icc x h1 h2
  have hc := acos_ofReal_Icc x h1 h2
  refine ⟨hs, ?_, hc, ?_⟩
  · rw [hs, Complex.ofReal_im]
  · rw [hc, Complex.ofReal_im]

/-- Witness for claim C7 at x = 0: the hypotheses hold and the complex
asin and acos at 0 equal the real arcsin and arccos of 0. -/
theorem asin_acos_spec_witness :
    (-1 : ℝ) ≤ 0 ∧ (0 : ℝ) ≤ 1 ∧
      (asin ((0 : ℝ) : ℂ) = ((Real.arcsin 0 : ℝ) : ℂ) ∧ (asin ((0 : ℝ) : ℂ)).im = 0 ∧
        acos ((0 : ℝ) : ℂ) = ((Real.arccos 0 : ℝ) : ℂ) ∧ (acos ((0 : ℝ) : ℂ)).im = 0) :=
  ⟨by norm_num, by norm_num, asin_acos_spec.2 0 (by norm_num) (by norm_num)⟩

end thinfilm
